import Mathlib

/-!
Verification of the global hotkey engine of the `csstatstracker` repository.

The engine lives in `internal/hotkey` (the handler in the shared file, the
key translators in `keymap_linux.go` and `keymap_windows.go`) and the
display helper in `internal/ui/settings.go`.  This development is a shallow
embedding of those functions: Go maps become duplicate-free lists, the
buffered channel becomes a bounded list, `time.Time` timestamps become
natural numbers counting milliseconds (with `Option` so that `none` models
Go's zero `time.Time`, for which `time.Since` is far larger than 100 ms).
-/

namespace CSStats

/-- A canonical key identifier, as produced by the key translators. -/
abbrev KeyName := String

/-- Embeds Go's `hook.Event`: the platform raw code and the printable
character fallback (`Keychar`), both as naturals. -/
structure HookEvent where
  rawcode : Nat
  keychar : Nat
deriving DecidableEq, Repr

/-- Go's `strings.ToLower`, character by character (the canonical key
names are ASCII, where `Char.toLower` agrees with Go). -/
def goToLower (s : String) : String := String.mk (s.data.map Char.toLower)

/-- Go's `strings.ToUpper`, character by character (ASCII-faithful). -/
def goToUpper (s : String) : String := String.mk (s.data.map Char.toUpper)

/-! ### Key translator, Linux (`keymap_linux.go`)

The Go function is a single `switch ev.Rawcode` whose cases all `return`
a non-empty string, followed by the printable-character fallback.  We split
the switch into `linuxRawTable` (returning `""` for "no case matched",
exactly the fall-through) and put the fallback in `mapKeyToNameLinux`. -/

/-- The `switch ev.Rawcode` table of `mapKeyToName` in `keymap_linux.go`
(X11 keysyms).  `""` encodes "no case matched". -/
def linuxRawTable (rawcode : Nat) : String :=
  match rawcode with
  | 65505 => "LeftShift"
  | 65506 => "RightShift"
  | 65507 => "LeftControl"
  | 65508 => "RightControl"
  | 65513 => "LeftAlt"
  | 65514 => "RightAlt"
  | 65515 => "LeftSuper"
  | 65516 => "RightSuper"
  | 65470 => "F1"
  | 65471 => "F2"
  | 65472 => "F3"
  | 65473 => "F4"
  | 65474 => "F5"
  | 65475 => "F6"
  | 65476 => "F7"
  | 65477 => "F8"
  | 65478 => "F9"
  | 65479 => "F10"
  | 65480 => "F11"
  | 65481 => "F12"
  | 65293 => "Return"
  | 65288 => "Backspace"
  | 65289 => "Tab"
  | 32 => "Space"
  | 65307 => "Escape"
  | 65457 => "Numpad1"
  | 65458 => "Numpad2"
  | 65459 => "Numpad3"
  | 65460 => "Numpad4"
  | 65461 => "Numpad5"
  | 65462 => "Numpad6"
  | 65463 => "Numpad7"
  | 65464 => "Numpad8"
  | 65465 => "Numpad9"
  | 65456 => "Numpad0"
  | 65454 => "NumpadDecimal"
  | 65451 => "NumpadAdd"
  | 65453 => "NumpadSubtract"
  | 65450 => "NumpadMultiply"
  | 65455 => "NumpadDivide"
  | 65421 => "NumpadEnter"
  | 45 => "-"
  | 61 => "="
  | 43 => "="
  | 95 => "-"
  | 97 => "a"
  | 98 => "b"
  | 99 => "c"
  | 100 => "d"
  | 101 => "e"
  | 102 => "f"
  | 103 => "g"
  | 104 => "h"
  | 105 => "i"
  | 106 => "j"
  | 107 => "k"
  | 108 => "l"
  | 109 => "m"
  | 110 => "n"
  | 111 => "o"
  | 112 => "p"
  | 113 => "q"
  | 114 => "r"
  | 115 => "s"
  | 116 => "t"
  | 117 => "u"
  | 118 => "v"
  | 119 => "w"
  | 120 => "x"
  | 121 => "y"
  | 122 => "z"
  | _ => ""

/-- `mapKeyToName` of `keymap_linux.go`: the rawcode table, then for
printable characters (`32 ≤ Keychar ≤ 126`) the literal one-character
string `string(rune(ev.Keychar))`, else `""`. -/
def mapKeyToNameLinux (ev : HookEvent) : String :=
  if linuxRawTable ev.rawcode ≠ "" then linuxRawTable ev.rawcode
  else if 32 ≤ ev.keychar ∧ ev.keychar ≤ 126 then String.singleton (Char.ofNat ev.keychar)
  else ""

/-! ### Key translator, Windows (`keymap_windows.go`) -/

/-- `mapRawcode` of `keymap_windows.go` (Windows Virtual Key codes);
`""` encodes "no case matched". -/
def mapRawcode (rawcode : Nat) : String :=
  match rawcode with
  | 160 => "LeftShift"
  | 161 => "RightShift"
  | 162 => "LeftControl"
  | 163 => "RightControl"
  | 164 => "LeftAlt"
  | 165 => "RightAlt"
  | 91 => "LeftSuper"
  | 92 => "RightSuper"
  | 112 => "F1"
  | 113 => "F2"
  | 114 => "F3"
  | 115 => "F4"
  | 116 => "F5"
  | 117 => "F6"
  | 118 => "F7"
  | 119 => "F8"
  | 120 => "F9"
  | 121 => "F10"
  | 122 => "F11"
  | 123 => "F12"
  | 13 => "Return"
  | 8 => "Backspace"
  | 9 => "Tab"
  | 32 => "Space"
  | 27 => "Escape"
  | 97 => "1"
  | 98 => "2"
  | 99 => "3"
  | 100 => "4"
  | 101 => "5"
  | 102 => "6"
  | 103 => "7"
  | 104 => "8"
  | 105 => "9"
  | 96 => "0"
  | 110 => "."
  | 107 => "+"
  | 109 => "-"
  | 106 => "*"
  | 111 => "/"
  | 189 => "-"
  | 187 => "="
  | 65 => "A"
  | 66 => "B"
  | 67 => "C"
  | 68 => "D"
  | 69 => "E"
  | 70 => "F"
  | 71 => "G"
  | 72 => "H"
  | 73 => "I"
  | 74 => "J"
  | 75 => "K"
  | 76 => "L"
  | 77 => "M"
  | 78 => "N"
  | 79 => "O"
  | 80 => "P"
  | 81 => "Q"
  | 82 => "R"
  | 83 => "S"
  | 84 => "T"
  | 85 => "U"
  | 86 => "V"
  | 87 => "W"
  | 88 => "X"
  | 89 => "Y"
  | 90 => "Z"
  | 48 => "0"
  | 49 => "1"
  | 50 => "2"
  | 51 => "3"
  | 52 => "4"
  | 53 => "5"
  | 54 => "6"
  | 55 => "7"
  | 56 => "8"
  | 57 => "9"
  | _ => ""

/-- `mapKeyToName` of `keymap_windows.go`: `mapRawcode`, then for printable
characters the fallback `strings.ToUpper(string(rune(ev.Keychar)))`,
else `""`. -/
def mapKeyToNameWindows (ev : HookEvent) : String :=
  if mapRawcode ev.rawcode ≠ "" then mapRawcode ev.rawcode
  else if 32 ≤ ev.keychar ∧ ev.keychar ≤ 126 then
    goToUpper (String.singleton (Char.ofNat ev.keychar))
  else ""

/-! ### Combo engine (handler section of the hotkey package) -/

/-- The Go `ActionType` enumeration (`ActionNone` is the zero value). -/
inductive ActionType where
  | actionNone
  | actionIncrementCT
  | actionDecrementCT
  | actionIncrementT
  | actionDecrementT
  | actionReset
  | actionSelectCT
  | actionSelectT
  | actionSwapTeams
deriving DecidableEq, Repr

/-- The Go `Bindings` struct: one key-name list per action. -/
structure Bindings where
  incrementCT : List KeyName
  decrementCT : List KeyName
  incrementT : List KeyName
  decrementT : List KeyName
  reset : List KeyName
  selectCT : List KeyName
  selectT : List KeyName
  swapTeams : List KeyName
deriving DecidableEq, Repr

/-- The binding field consulted for a (non-`actionNone`) action, following
the order of the fields of `Bindings`. -/
def bindingFor (b : Bindings) : ActionType → List KeyName
  | .actionNone => []
  | .actionIncrementCT => b.incrementCT
  | .actionDecrementCT => b.decrementCT
  | .actionIncrementT => b.incrementT
  | .actionDecrementT => b.decrementT
  | .actionReset => b.reset
  | .actionSelectCT => b.selectCT
  | .actionSelectT => b.selectT
  | .actionSwapTeams => b.swapTeams

/-- The capacity of the action channel: `make(chan ActionType, 10)` in
`NewHandler`. -/
def queueCapacity : Nat := 10

/-- The non-blocking send `select { case h.actionChan <- action: default: }`
on the buffered channel: the value is appended when a buffer slot is free
and silently dropped otherwise. -/
def trySend (q : List ActionType) (a : ActionType) : List ActionType :=
  if q.length < queueCapacity then q ++ [a] else q

/-- The blocking receive on the buffered channel (FIFO). -/
def receive : List ActionType → Option (ActionType × List ActionType)
  | [] => none
  | a :: q => some (a, q)

/-- The first `n` actions the consumer loop observes when draining a queue. -/
def drain (q : List ActionType) : Nat → List ActionType
  | 0 => []
  | n + 1 =>
    match receive q with
    | none => []
    | some (a, q') => a :: drain q' n

/-- The Go `Handler` struct.  `pressedKeys` (a `map[string]bool` holding
only `true` entries) is a duplicate-free list; `lastActionTime` is `none`
for Go's zero `time.Time` (for which `time.Since` vastly exceeds 100 ms)
and `some t` after an action fired at millisecond `t`; `actionChan` is the
buffer content of the capacity-10 channel. -/
structure Handler where
  bindings : Bindings
  pressedKeys : List KeyName
  lastActionTime : Option Nat
  hookRunning : Bool
  actionChan : List ActionType
deriving DecidableEq, Repr

/-- `NewHandler`: empty held-key map, zero last-action time, hook not
running, empty capacity-10 action channel. -/
def NewHandler (bindings : Bindings) : Handler :=
  { bindings := bindings
    pressedKeys := []
    lastActionTime := none
    hookRunning := false
    actionChan := [] }

/-- `UpdateBindings`: replace the binding table (under the handler lock). -/
def UpdateBindings (h : Handler) (bindings : Bindings) : Handler :=
  { h with bindings := bindings }

/-- `Start`: a no-op when already running, otherwise marks the hook running
(the OS hook and forwarding goroutine themselves are outside the state).
It does not touch `pressedKeys`, `lastActionTime` or `actionChan`. -/
def Start (h : Handler) : Handler :=
  if h.hookRunning then h else { h with hookRunning := true }

/-- `Stop`: ends the OS hook when running.  It does not touch
`pressedKeys`, `lastActionTime` or `actionChan`. -/
def Stop (h : Handler) : Handler :=
  if h.hookRunning then { h with hookRunning := false } else h

/-- `h.matchesCombo(comboKeys)`: every combo key is found among the pressed
keys by lowercase comparison (`strings.ToLower`), and the numbers of
pressed and combo keys are equal. -/
def matchesCombo (pressed comboKeys : List KeyName) : Bool :=
  (comboKeys.all fun key => pressed.any fun pressedKey =>
    goToLower pressedKey == goToLower key) && pressed.length == comboKeys.length

/-- The `if/else if` chain of `handleKeyDown` that picks the first matching
binding, in source order; `actionNone` when none matches. -/
def chooseAction (b : Bindings) (pressed : List KeyName) : ActionType :=
  if matchesCombo pressed b.incrementCT then .actionIncrementCT
  else if matchesCombo pressed b.decrementCT then .actionDecrementCT
  else if matchesCombo pressed b.incrementT then .actionIncrementT
  else if matchesCombo pressed b.decrementT then .actionDecrementT
  else if matchesCombo pressed b.reset then .actionReset
  else if matchesCombo pressed b.selectCT then .actionSelectCT
  else if matchesCombo pressed b.selectT then .actionSelectT
  else if matchesCombo pressed b.swapTeams then .actionSwapTeams
  else .actionNone

/-- Map insert `h.pressedKeys[keyName] = true` (a no-op on a present key). -/
def insertKey (pressed : List KeyName) (keyName : KeyName) : List KeyName :=
  if keyName ∈ pressed then pressed else keyName :: pressed

/-- `handleKeyDown`, with `now` the millisecond timestamp at which the
event is processed.  Returns the updated handler and the action fired at
this event (`none` when the duplicate guard, the cooldown
`time.Since(h.lastActionTime) < 100*time.Millisecond`, or the match chain
stops it); a fired action updates `lastActionTime` and is then offered to
the channel by the non-blocking send. -/
def handleKeyDown (h : Handler) (keyName : KeyName) (now : Nat) :
    Handler × Option ActionType :=
  if keyName ∈ h.pressedKeys then (h, none)
  else
    let pressed := keyName :: h.pressedKeys
    let h1 := { h with pressedKeys := pressed }
    if (match h.lastActionTime with
        | none => false
        | some last => now < last + 100) then (h1, none)
    else
      let action := chooseAction h.bindings pressed
      if action = ActionType.actionNone then (h1, none)
      else
        ({ h1 with
            lastActionTime := some now
            actionChan := trySend h.actionChan action }, some action)

/-- `handleKeyUp`: `delete(h.pressedKeys, keyName)` unconditionally. -/
def handleKeyUp (h : Handler) (keyName : KeyName) : Handler :=
  { h with pressedKeys := h.pressedKeys.filter fun k => k ≠ keyName }

/-- A translated native event as fed to the handler by the delivery
goroutine: a key-down carries the timestamp at which it is processed. -/
inductive KeyEvent where
  | down (key : KeyName) (time : Nat)
  | up (key : KeyName)
deriving DecidableEq, Repr

/-- One event dispatched through the `switch ev.Kind` of the delivery loop;
a fired action is reported together with its emission time. -/
def stepEvent (h : Handler) : KeyEvent → Handler × Option (ActionType × Nat)
  | .down key time =>
    match handleKeyDown h key time with
    | (h', fired) => (h', fired.map fun a => (a, time))
  | .up key => (handleKeyUp h key, none)

/-- Runs the delivery loop over a list of events, collecting the fired
actions with their emission times in order. -/
def processEvents (h : Handler) : List KeyEvent → Handler × List (ActionType × Nat)
  | [] => (h, [])
  | e :: es =>
    let p := stepEvent h e
    let rest := processEvents p.1 es
    (rest.1, p.2.toList ++ rest.2)

/-! ### Display helper (`internal/ui/settings.go`) -/

/-- `FormatHotkeys`: `"Not set"` for an empty slice, otherwise the loop
`for i, key := range keys { if i > 0 { result += "+" }; result += key }`,
embedded as a fold over the indexed list. -/
def FormatHotkeys (keys : List String) : String :=
  if keys.length = 0 then "Not set"
  else keys.enum.foldl (fun result p =>
    (if 0 < p.1 then result ++ "+" else result) ++ p.2) ""

/-- The spec's description of the formatting helper, written from its
words alone: the key names joined with `+` in their original order. -/
def joinPlusSpec : List String → String
  | [] => ""
  | [k] => k
  | k :: ks => k ++ "+" ++ joinPlusSpec ks

/-! ### Helper lemmas -/

/-- Unfolding of the match predicate into its two propositional parts. -/
lemma matchesCombo_eq_true_iff (pressed comboKeys : List KeyName) :
    matchesCombo pressed comboKeys = true ↔
      ((∀ k ∈ comboKeys, ∃ p ∈ pressed, goToLower p = goToLower k)
        ∧ pressed.length = comboKeys.length) := by
  simp [matchesCombo]

/-- A successful match forces equal cardinalities. -/
lemma matchesCombo_length {pressed comboKeys : List KeyName}
    (h : matchesCombo pressed comboKeys = true) :
    pressed.length = comboKeys.length :=
  ((matchesCombo_eq_true_iff pressed comboKeys).1 h).2

/-- Claim C1 counterexample: with the binding `["a", "a"]` and the held
keys `["a", "x"]`, every binding key is held and the extra held key `"x"`
matches no binding key, yet the combo matches, so a held-key set strictly
containing the binding's keys plus an extra key can match. -/
theorem matchesCombo_superset_counterexample :
    (∀ k ∈ (["a", "a"] : List KeyName), k ∈ (["a", "x"] : List KeyName))
    ∧ "x" ∈ (["a", "x"] : List KeyName)
    ∧ (∀ k ∈ (["a", "a"] : List KeyName), goToLower "x" ≠ goToLower k)
    ∧ matchesCombo ["a", "x"] ["a", "a"] = true := by
  decide

/-- Claim C1 (amended): the combo match predicate holds iff every key of
the binding is present among the held keys under case-insensitive
comparison and the cardinalities agree; and, provided the binding's keys
are pairwise distinct under case-insensitive comparison, a held-key set
containing all of the binding's keys plus an extra key matching none of
them never matches. -/
theorem matchesCombo_exact_cardinality :
    ∀ (B H : List KeyName),
      (matchesCombo H B = true ↔
        ((∀ k ∈ B, ∃ p ∈ H, goToLower p = goToLower k) ∧ H.length = B.length))
      ∧ ((B.map goToLower).Nodup →
          (∀ k ∈ B, ∃ p ∈ H, goToLower p = goToLower k) →
          (∃ x ∈ H, ∀ k ∈ B, goToLower x ≠ goToLower k) →
          matchesCombo H B = false) := by
  intro B H
  refine ⟨matchesCombo_eq_true_iff H B, ?_⟩
  rintro hnd hsub ⟨x, hx, hxk⟩
  have hlt : B.length < H.length := by
    have hcard : (B.map goToLower).toFinset.card = B.length := by
      rw [List.toFinset_card_of_nodup hnd, List.length_map]
    have hsubset : insert (goToLower x) (B.map goToLower).toFinset
        ⊆ (H.map goToLower).toFinset := by
      intro y hy
      rcases Finset.mem_insert.1 hy with hy | hy
      · subst hy
        exact List.mem_toFinset.2 (List.mem_map.2 ⟨x, hx, rfl⟩)
      · rcases List.mem_map.1 (List.mem_toFinset.1 hy) with ⟨k, hk, rfl⟩
        rcases hsub k hk with ⟨p, hp, hpk⟩
        exact List.mem_toFinset.2 (List.mem_map.2 ⟨p, hp, hpk⟩)
    have hnotmem : goToLower x ∉ (B.map goToLower).toFinset := by
      intro hmem
      rcases List.mem_map.1 (List.mem_toFinset.1 hmem) with ⟨k, hk, hk2⟩
      exact hxk k hk hk2.symm
    have h1 : B.length + 1 ≤ (H.map goToLower).toFinset.card := by
      calc B.length + 1
          = (insert (goToLower x) (B.map goToLower).toFinset).card := by
            rw [Finset.card_insert_of_not_mem hnotmem, hcard]
        _ ≤ (H.map goToLower).toFinset.card := Finset.card_le_card hsubset
    have h2 : (H.map goToLower).toFinset.card ≤ H.length := by
      calc (H.map goToLower).toFinset.card ≤ (H.map goToLower).length :=
            (H.map goToLower).toFinset_card_le
        _ = H.length := List.length_map _ _
    omega
  cases hmc : matchesCombo H B with
  | false => rfl
  | true => exact absurd (matchesCombo_length hmc) (by omega)

/-- Witness for C1: the spec's own example, `{"LeftControl","C"}` held
together with the extra `"LeftShift"`, does not match. -/
theorem matchesCombo_exact_cardinality_witness :
    matchesCombo ["LeftControl", "C", "LeftShift"] ["LeftControl", "C"] = false :=
  (matchesCombo_exact_cardinality ["LeftControl", "C"]
    ["LeftControl", "C", "LeftShift"]).2 (by decide) (by decide) (by decide)

/-- Claim C6: a key-down for an already-held key changes nothing at all:
same held keys, same cooldown clock, same queue, and no action fired. -/
theorem duplicate_keydown_noop :
    ∀ (h : Handler) (k : KeyName) (t : Nat),
      k ∈ h.pressedKeys → handleKeyDown h k t = (h, none) := by
  intro h k t hk
  unfold handleKeyDown
  simp [hk]

/-- A sample handler holding the key `"a"`, with a binding that would fire
on it were it evaluated again. -/
def sampleHeldHandler : Handler :=
  { bindings := ⟨["a"], [], [], [], [], [], [], []⟩
    pressedKeys := ["a"]
    lastActionTime := some 0
    hookRunning := true
    actionChan := [] }

/-- Witness for C6 at a concrete handler already holding `"a"`. -/
theorem duplicate_keydown_noop_witness :
    handleKeyDown sampleHeldHandler "a" 500 = (sampleHeldHandler, none) :=
  duplicate_keydown_noop sampleHeldHandler "a" 500 (by decide)

/-- `handleKeyDown` with its local `let`s inlined, for case splitting. -/
lemma handleKeyDown_def (h : Handler) (keyName : KeyName) (now : Nat) :
    handleKeyDown h keyName now =
      if keyName ∈ h.pressedKeys then (h, none)
      else if (match h.lastActionTime with
          | none => false
          | some last => now < last + 100) then
        ({ h with pressedKeys := keyName :: h.pressedKeys }, none)
      else if chooseAction h.bindings (keyName :: h.pressedKeys)
          = ActionType.actionNone then
        ({ h with pressedKeys := keyName :: h.pressedKeys }, none)
      else
        ({ h with
            pressedKeys := keyName :: h.pressedKeys
            lastActionTime := some now
            actionChan := trySend h.actionChan
              (chooseAction h.bindings (keyName :: h.pressedKeys)) },
          some (chooseAction h.bindings (keyName :: h.pressedKeys))) := rfl

/-- The chosen action of the `if/else if` chain really matched. -/
lemma chooseAction_matches (b : Bindings) (pressed : List KeyName)
    (hne : chooseAction b pressed ≠ .actionNone) :
    matchesCombo pressed (bindingFor b (chooseAction b pressed)) = true := by
  unfold chooseAction at hne ⊢
  split_ifs at hne ⊢ <;> simp_all [bindingFor]

/-- If `handleKeyDown` fires an action, the chain matched that action's
binding against the held keys extended with the new key. -/
lemma handleKeyDown_fired_matches (h : Handler) (k : KeyName) (t : Nat)
    (a : ActionType) (hf : (handleKeyDown h k t).2 = some a) :
    a ≠ .actionNone ∧
      matchesCombo (k :: h.pressedKeys) (bindingFor h.bindings a) = true := by
  rw [handleKeyDown_def] at hf
  split_ifs at hf with h1 h2 h3
  simp at hf
  subst hf
  exact ⟨h3, chooseAction_matches h.bindings (k :: h.pressedKeys) h3⟩

/-- Claim C5: an empty binding never matches at a match-evaluation point
(the held set always contains at least the key just inserted), and hence
a fired action always comes from a non-empty binding. -/
theorem empty_binding_never_fires :
    (∀ (pressed : List KeyName) (k : KeyName),
      matchesCombo (k :: pressed) [] = false)
    ∧ (∀ (h : Handler) (k : KeyName) (t : Nat) (a : ActionType),
        (handleKeyDown h k t).2 = some a → bindingFor h.bindings a ≠ []) := by
  constructor
  · intro pressed k
    simp [matchesCombo]
  · intro h k t a hf hempty
    have hm := (handleKeyDown_fired_matches h k t a hf).2
    rw [hempty] at hm
    have := matchesCombo_length hm
    simp at this

/-- A fresh handler whose increment-CT binding is `["a"]`. -/
def sampleFireHandler : Handler :=
  NewHandler ⟨["a"], [], [], [], [], [], [], []⟩

/-- Witness for C5: a concrete fired action has a non-empty binding. -/
theorem empty_binding_never_fires_witness :
    bindingFor sampleFireHandler.bindings ActionType.actionIncrementCT ≠ [] :=
  empty_binding_never_fires.2 sampleFireHandler "a" 0
    ActionType.actionIncrementCT (by decide)

/-- Claim C7: the hand-off queue has fixed capacity 10
(`make(chan ActionType, 10)`), and a send against a full queue completes
as the identity: the queue is unchanged, so every later receive observes
exactly what was already buffered and the dropped action never appears. -/
theorem actionChan_capacity_drop :
    queueCapacity = 10
    ∧ (∀ (q : List ActionType) (a : ActionType),
        q.length = queueCapacity →
        trySend q a = q ∧ ∀ n, drain (trySend q a) n = drain q n) := by
  refine ⟨rfl, ?_⟩
  intro q a hq
  have hts : trySend q a = q := by
    simp [trySend, hq]
  exact ⟨hts, fun n => by rw [hts]⟩

/-- Witness for C7: an eleventh send against ten buffered actions leaves
the buffer unchanged. -/
theorem actionChan_capacity_drop_witness :
    trySend (List.replicate 10 ActionType.actionReset) ActionType.actionSwapTeams
      = List.replicate 10 ActionType.actionReset :=
  (actionChan_capacity_drop.2 (List.replicate 10 ActionType.actionReset)
    ActionType.actionSwapTeams (by decide)).1

/-- A binding table with every action disabled. -/
def emptyBindings : Bindings := ⟨[], [], [], [], [], [], [], []⟩

/-- Claim C8 is violated by the code: `Stop` and `Start` never clear
`pressedKeys`, so a key held during one activation is still recorded as
held after a stop/start cycle; concretely, press `"a"` while listening,
stop, start again — `"a"` is still in the held-key set. -/
theorem stale_held_keys_survive_restart :
    (∀ h : Handler, (Start (Stop h)).pressedKeys = h.pressedKeys)
    ∧ "a" ∈ (Start (Stop (handleKeyDown (Start (NewHandler emptyBindings))
        "a" 0).1)).pressedKeys := by
  constructor
  · intro h
    unfold Start Stop
    split_ifs <;> rfl
  · decide

/-- Dichotomy for one key-down: either nothing fires and the cooldown
clock is untouched, or an action fires, the clock is set to `now`, and the
previous emission (when there was one) lies at least 100 ms in the past. -/
lemma handleKeyDown_cases (h : Handler) (k : KeyName) (t : Nat) :
    ((handleKeyDown h k t).2 = none
      ∧ (handleKeyDown h k t).1.lastActionTime = h.lastActionTime)
    ∨ ((handleKeyDown h k t).2 ≠ none
      ∧ (handleKeyDown h k t).1.lastActionTime = some t
      ∧ ∀ L, h.lastActionTime = some L → L + 100 ≤ t) := by
  rw [handleKeyDown_def]
  split_ifs with h1 h2 h3
  · exact Or.inl ⟨rfl, rfl⟩
  · exact Or.inl ⟨rfl, rfl⟩
  · exact Or.inl ⟨rfl, rfl⟩
  · refine Or.inr ⟨by simp, rfl, ?_⟩
    intro L hL
    rw [hL] at h2
    simpa [Nat.not_lt] using h2

/-- `handleKeyUp` never touches the cooldown clock. -/
lemma handleKeyUp_lastActionTime (h : Handler) (k : KeyName) :
    (handleKeyUp h k).lastActionTime = h.lastActionTime := rfl

/-- Every action fired while processing a trace is emitted at least 100 ms
after the initial cooldown clock, and the fired actions are pairwise at
least 100 ms apart. -/
lemma processEvents_gaps (es : List KeyEvent) :
    ∀ h : Handler,
      (∀ L, h.lastActionTime = some L →
        ∀ p ∈ (processEvents h es).2, L + 100 ≤ p.2)
      ∧ (processEvents h es).2.Pairwise (fun p q => p.2 + 100 ≤ q.2) := by
  induction es with
  | nil => exact fun h => ⟨fun L _ p hp => absurd hp (by simp [processEvents]), by
      simp [processEvents]⟩
  | cons e es ih =>
    intro h
    cases e with
    | up k =>
      have heq : processEvents h (KeyEvent.up k :: es)
          = (((processEvents (handleKeyUp h k) es)).1,
              (processEvents (handleKeyUp h k) es).2) := by
        simp [processEvents, stepEvent]
      rcases ih (handleKeyUp h k) with ⟨ih1, ih2⟩
      rw [handleKeyUp_lastActionTime] at ih1
      rw [heq]
      exact ⟨ih1, ih2⟩
    | down k t =>
      have heq : (processEvents h (KeyEvent.down k t :: es)).2
          = ((handleKeyDown h k t).2.map fun a => (a, t)).toList
            ++ (processEvents (handleKeyDown h k t).1 es).2 := rfl
      rcases ih (handleKeyDown h k t).1 with ⟨ih1, ih2⟩
      rcases handleKeyDown_cases h k t with
        ⟨hnone, hlast⟩ | ⟨hsome, hlast, hgap⟩
      · rw [hnone] at heq
        rw [heq]
        simp only [Option.map_none', Option.toList_none, List.nil_append]
        rw [hlast] at ih1
        exact ⟨ih1, ih2⟩
      · rcases Option.ne_none_iff_exists'.1 hsome with ⟨a, ha⟩
        rw [ha] at heq
        rw [heq]
        simp only [Option.map_some', Option.toList_some, List.singleton_append]
        rw [hlast] at ih1
        have hrest : ∀ p ∈ (processEvents (handleKeyDown h k t).1 es).2,
            t + 100 ≤ p.2 := ih1 t rfl
        constructor
        · intro L hL p hp
          rcases List.mem_cons.1 hp with hp | hp
          · subst hp
            exact hgap L hL
          · have h1 := hrest p hp
            have h2 := hgap L hL
            omega
        · exact List.Pairwise.cons (fun p hp => hrest p hp) ih2

/-- Claim C2: over any event trace from a fresh handler, the fired actions
carry emission times pairwise at least 100 ms apart; and a key-down
arriving while the cooldown is active (strictly less than 100 ms after the
last emission) only inserts its key — the handler is otherwise unchanged
and nothing fires, whatever the bindings. -/
theorem cooldown_min_interval :
    (∀ (b : Bindings) (es : List KeyEvent),
      ((processEvents (NewHandler b) es).2).Pairwise fun p q => p.2 + 100 ≤ q.2)
    ∧ (∀ (h : Handler) (k : KeyName) (t L : Nat),
        h.lastActionTime = some L → t < L + 100 →
        handleKeyDown h k t
          = ({ h with pressedKeys := insertKey h.pressedKeys k }, none)) := by
  constructor
  · exact fun b es => (processEvents_gaps es (NewHandler b)).2
  · intro h k t L hL ht
    rw [handleKeyDown_def, insertKey]
    by_cases hk : k ∈ h.pressedKeys
    · simp [hk]
    · rw [if_neg hk, if_neg hk, hL, if_pos (by simpa using ht)]

/-- A handler in cooldown: the last action fired at time 10, and the
binding `["b"]` would match the next key-down were it evaluated. -/
def sampleCooldownHandler : Handler :=
  { bindings := ⟨["b"], [], [], [], [], [], [], []⟩
    pressedKeys := []
    lastActionTime := some 10
    hookRunning := true
    actionChan := [] }

/-- Witness for C2: a key-down at time 50, within 100 ms of the emission
at time 10, inserts the key and fires nothing. -/
theorem cooldown_min_interval_witness :
    handleKeyDown sampleCooldownHandler "b" 50
      = ({ sampleCooldownHandler with
            pressedKeys := insertKey sampleCooldownHandler.pressedKeys "b" },
          none) :=
  cooldown_min_interval.2 sampleCooldownHandler "b" 50 10 rfl (by decide)

/-- Claim C10: whenever a key-down fires an action, the cooldown clock is
set to the event time — also when the queue is already full, in which case
the action is dropped (the queue is unchanged) — and any key-down within
the next 100 ms fires nothing. -/
theorem cooldown_updated_before_send :
    ∀ (h : Handler) (k : KeyName) (t : Nat) (a : ActionType),
      (handleKeyDown h k t).2 = some a →
      (handleKeyDown h k t).1.lastActionTime = some t
      ∧ (h.actionChan.length = queueCapacity →
          (handleKeyDown h k t).1.actionChan = h.actionChan)
      ∧ ∀ (k2 : KeyName) (t2 : Nat), t2 < t + 100 →
          (handleKeyDown (handleKeyDown h k t).1 k2 t2).2 = none := by
  intro h k t a hf
  rcases handleKeyDown_cases h k t with ⟨hnone, _⟩ | ⟨_, hlast, _⟩
  · rw [hf] at hnone
    exact absurd hnone (by simp)
  · refine ⟨hlast, ?_, ?_⟩
    · intro hfull
      rw [handleKeyDown_def] at hf ⊢
      split_ifs at hf ⊢ with h1 h2 h3
      simp [trySend, hfull]
    · intro k2 t2 ht2
      rw [handleKeyDown_def]
      rw [hlast]
      split_ifs with h1 h2
      · rfl
      · rfl
      · exact absurd (by simpa using ht2) h2
      · exact absurd (by simpa using ht2) h2

/-- A handler with a full action queue whose increment-CT binding fires on
the key `"a"`. -/
def sampleFullHandler : Handler :=
  { bindings := ⟨["a"], [], [], [], [], [], [], []⟩
    pressedKeys := []
    lastActionTime := none
    hookRunning := true
    actionChan := List.replicate 10 ActionType.actionReset }

/-- Witness for C10: the fired action at time 0 sets the clock to 0 and is
dropped by the full queue. -/
theorem cooldown_updated_before_send_witness :
    (handleKeyDown sampleFullHandler "a" 0).1.lastActionTime = some 0
    ∧ (handleKeyDown sampleFullHandler "a" 0).1.actionChan
      = sampleFullHandler.actionChan :=
  ⟨(cooldown_updated_before_send sampleFullHandler "a" 0
      ActionType.actionIncrementCT (by decide)).1,
    (cooldown_updated_before_send sampleFullHandler "a" 0
      ActionType.actionIncrementCT (by decide)).2.1 (by decide)⟩

/-! ### Cross-platform key-name agreement -/

/-- The raw codes denoting the same physical key in both tables, paired by
the comments of `keymap_linux.go` (X11 keysyms) and `keymap_windows.go`
(Virtual Key codes): the eight modifiers, F1–F12, Return, Backspace, Tab,
Space, Escape, and the minus and equals keys. -/
def agreedKeyPairs : List (Nat × Nat) :=
  [(65505, 160), (65506, 161), (65507, 162), (65508, 163),
   (65513, 164), (65514, 165), (65515, 91), (65516, 92),
   (65470, 112), (65471, 113), (65472, 114), (65473, 115),
   (65474, 116), (65475, 117), (65476, 118), (65477, 119),
   (65478, 120), (65479, 121), (65480, 122), (65481, 123),
   (65293, 13), (65288, 8), (65289, 9), (32, 32), (65307, 27),
   (45, 189), (61, 187)]

/-- The letter keys a–z: X11 keysym (lowercase ASCII code) paired with the
Windows Virtual Key code (uppercase ASCII code). -/
def letterKeyPairs : List (Nat × Nat) :=
  [(97, 65), (98, 66), (99, 67), (100, 68), (101, 69), (102, 70),
   (103, 71), (104, 72), (105, 73), (106, 74), (107, 75), (108, 76),
   (109, 77), (110, 78), (111, 79), (112, 80), (113, 81), (114, 82),
   (115, 83), (116, 84), (117, 85), (118, 86), (119, 87), (120, 88),
   (121, 89), (122, 90)]

/-- The numpad keys present in both tables, paired by the comments
(`Numpad1`…`Numpad0`, decimal, add, subtract, multiply, divide). -/
def numpadKeyPairs : List (Nat × Nat) :=
  [(65457, 97), (65458, 98), (65459, 99), (65460, 100), (65461, 101),
   (65462, 102), (65463, 103), (65464, 104), (65465, 105), (65456, 96),
   (65454, 110), (65451, 107), (65453, 109), (65450, 106), (65455, 111)]

/-- Claim C3 counterexample: the two translators disagree on the letter-A
key (Linux keysym 97 gives `"a"`, Windows VK 65 gives `"A"`) and on the
Numpad1 key (Linux keysym 65457 gives `"Numpad1"`, Windows VK 97 gives
`"1"`), so a persisted binding using those names does not carry across
platforms. -/
theorem keymap_agreement_counterexample :
    mapKeyToNameLinux ⟨97, 97⟩ = "a"
    ∧ mapKeyToNameWindows ⟨65, 97⟩ = "A"
    ∧ mapKeyToNameLinux ⟨97, 97⟩ ≠ mapKeyToNameWindows ⟨65, 97⟩
    ∧ mapKeyToNameLinux ⟨65457, 49⟩ = "Numpad1"
    ∧ mapKeyToNameWindows ⟨97, 49⟩ = "1"
    ∧ mapKeyToNameLinux ⟨65457, 49⟩ ≠ mapKeyToNameWindows ⟨97, 49⟩ := by
  decide

/-- Claim C3 (amended): the two tables agree verbatim on modifiers,
function keys, Return/Backspace/Tab/Space/Escape and the minus/equals
keys; on the letter keys they agree only up to case (Linux lowercase,
Windows uppercase — equal under the engine's case-insensitive matching
but not as strings); on the numpad keys they disagree outright. -/
theorem keymap_agreement_amended :
    (∀ p ∈ agreedKeyPairs, linuxRawTable p.1 = mapRawcode p.2)
    ∧ (∀ p ∈ letterKeyPairs,
        goToLower (linuxRawTable p.1) = goToLower (mapRawcode p.2)
        ∧ linuxRawTable p.1 ≠ mapRawcode p.2)
    ∧ (∀ p ∈ numpadKeyPairs, linuxRawTable p.1 ≠ mapRawcode p.2) := by
  decide

/-- Witness for C3: the left-control pair agrees verbatim. -/
theorem keymap_agreement_amended_witness :
    linuxRawTable 65507 = mapRawcode 162 :=
  keymap_agreement_amended.1 (65507, 162) (by decide)

/-- Claim C4 counterexample: on Linux an unmapped raw code with the
printable letter fallback `'b'` (98) translates to the literal lowercase
`"b"`, not to the uppercase `"B"` the claim requires. -/
theorem fallback_uppercase_counterexample :
    linuxRawTable 0 = ""
    ∧ mapKeyToNameLinux ⟨0, 98⟩ = "b"
    ∧ mapKeyToNameLinux ⟨0, 98⟩ ≠ "B" := by
  decide

/-- Claim C4 (amended): for an unmapped raw code with a printable-ASCII
fallback character, the Windows translator returns the character with
letters normalized to uppercase (`strings.ToUpper`), while the Linux
translator returns the literal one-character string with no case
normalization. -/
theorem fallback_printable_amended :
    ∀ (r c : Nat), 32 ≤ c → c ≤ 126 →
      (linuxRawTable r = "" →
        mapKeyToNameLinux ⟨r, c⟩ = String.singleton (Char.ofNat c))
      ∧ (mapRawcode r = "" →
        mapKeyToNameWindows ⟨r, c⟩ = goToUpper (String.singleton (Char.ofNat c))) := by
  intro r c h1 h2
  constructor
  · intro h3
    simp [mapKeyToNameLinux, h3, h1, h2]
  · intro h3
    simp [mapKeyToNameWindows, h3, h1, h2]

/-- Witness for C4: the unmapped raw code 0 with fallback `'b'` yields the
literal `"b"` on Linux and the uppercased `"B"` on Windows. -/
theorem fallback_printable_amended_witness :
    mapKeyToNameLinux ⟨0, 98⟩ = String.singleton (Char.ofNat 98)
    ∧ mapKeyToNameWindows ⟨0, 98⟩ = goToUpper (String.singleton (Char.ofNat 98)) :=
  ⟨(fallback_printable_amended 0 98 (by decide) (by decide)).1 (by decide),
    (fallback_printable_amended 0 98 (by decide) (by decide)).2 (by decide)⟩

/-! ### Display-formatting helper -/

/-- The suffix a join contributes after its first element: `"+" ++ key`
for each remaining key. -/
def plusTail : List String → String
  | [] => ""
  | k :: ks => "+" ++ k ++ plusTail ks

/-- The spec-level join splits off its head. -/
lemma joinPlusSpec_cons (k : String) (ks : List String) :
    joinPlusSpec (k :: ks) = k ++ plusTail ks := by
  induction ks generalizing k with
  | nil => simp [joinPlusSpec, plusTail]
  | cons k2 ks ih =>
    have hstep : joinPlusSpec (k :: k2 :: ks)
        = k ++ "+" ++ joinPlusSpec (k2 :: ks) := rfl
    rw [hstep, ih k2, plusTail]
    simp [String.append_assoc]

/-- The display loop over the indexed tail (all indices positive) appends
`"+" ++ key` for each key. -/
lemma foldl_enumFrom_plus (ks : List String) :
    ∀ (n : Nat), 0 < n → ∀ acc : String,
      (ks.enumFrom n).foldl (fun result p =>
        (if 0 < p.1 then result ++ "+" else result) ++ p.2) acc
      = acc ++ plusTail ks := by
  induction ks with
  | nil =>
    intro n hn acc
    simp [plusTail]
  | cons k ks ih =>
    intro n hn acc
    rw [List.enumFrom_cons, List.foldl_cons, if_pos hn,
      ih (n + 1) (by omega) (acc ++ "+" ++ k), plusTail]
    simp [String.append_assoc]

/-- Claim C9 counterexample: on an empty binding the helper returns
`"Not set"`, not the join of zero key names (the empty string). -/
theorem FormatHotkeys_empty_counterexample :
    FormatHotkeys [] = "Not set" ∧ FormatHotkeys [] ≠ joinPlusSpec [] := by
  decide

/-- Claim C9 (amended): on a non-empty binding the helper returns exactly
the key names joined with `"+"` in their original order; on an empty
binding it returns `"Not set"`. -/
theorem FormatHotkeys_amended :
    ∀ keys : List String,
      (keys ≠ [] → FormatHotkeys keys = joinPlusSpec keys)
      ∧ (keys = [] → FormatHotkeys keys = "Not set") := by
  intro keys
  constructor
  · intro hne
    cases keys with
    | nil => exact absurd rfl hne
    | cons k ks =>
      rw [FormatHotkeys, if_neg (by simp), joinPlusSpec_cons,
        List.enum_cons, List.foldl_cons]
      have hhead : (if 0 < (0, k).1 then ("" : String) ++ "+" else "") ++ (0, k).2
          = k := by simp
      rw [hhead, foldl_enumFrom_plus ks 1 (by omega) k]
  · intro h
    subst h
    rfl

/-- Witness for C9: a two-key binding renders as the `+`-joined names. -/
theorem FormatHotkeys_amended_witness :
    FormatHotkeys ["LeftControl", "C"] = joinPlusSpec ["LeftControl", "C"] :=
  (FormatHotkeys_amended ["LeftControl", "C"]).1 (by decide)

end CSStats
